import Mathlib

/-!
Verification development for the opsiq-runtime decision pipeline.

Shallow embedding of:
- the Activation Policy Engine
  (src/opsiq_runtime/domain/activation_policy/{models,ordering,exclusions,selection}.py
   and activation_policy/__init__.py),
- the primitive registry (src/opsiq_runtime/application/registry.py),
- the Runner orchestration (src/opsiq_runtime/application/runner.py),
- the idempotent DELETE-then-INSERT / MERGE persistence protocol of
  src/opsiq_runtime/adapters/databricks/outputs_repo.py.

Conventions used throughout:
- Python floats that only get compared/added are modelled as rationals (Rat);
  datetimes as integer timestamps.
- Python dicts are modelled as insertion-ordered association lists with
  update-in-place-or-append semantics (matching CPython dict behaviour).
- Fallible Python code is modelled with Except; effects (lock calls, writes
  to the warehouse, audit-registry writes) are recorded in an explicit state
  record threaded through the model.
-/

namespace Opsiq

/-! ### Python dict helpers (insertion-ordered association lists) -/

/-- Values storable in an ActivationItem metadata dict (the subset exercised
by the activation-policy code: numbers, strings, lists of strings). -/
inductive MetaVal
  | num (v : Rat)
  | str (v : String)
  | strList (v : List String)
deriving DecidableEq, Repr

/-- Python `d.get(k)`: first binding of `k`, if any. -/
def dictGet {α : Type} (m : List (String × α)) (k : String) : Option α :=
  match m with
  | [] => none
  | p :: rest => if p.1 = k then some p.2 else dictGet rest k

/-- Python `d[k] = v`: update an existing key in place (keeping its position
in insertion order) or append a fresh binding. -/
def dictSet (m : List (String × MetaVal)) (k : String) (v : MetaVal) :
    List (String × MetaVal) :=
  if m.any (fun p => p.1 = k) then
    m.map (fun p => if p.1 = k then (k, v) else p)
  else m ++ [(k, v)]

/-- Python `counts[k] = counts.get(k, 0) + 1` over a str→int dict. -/
def bumpCount (m : List (String × Nat)) (k : String) : List (String × Nat) :=
  if m.any (fun p => p.1 = k) then
    m.map (fun p => if p.1 = k then (p.1, p.2 + 1) else p)
  else m ++ [(k, 1)]

/-! ### Activation policy: data model (domain/activation_policy/models.py) -/

/-- ActivationItem from models.py. `score` is a Python float, modelled as Rat;
`metadata` is an open dict. -/
structure ActivationItem where
  item_group_id : String
  gtin : Option String := none
  linkcode : Option String := none
  category : Option String := none
  score : Rat := 0
  metadata : List (String × MetaVal) := []
deriving DecidableEq, Repr

/-- ExclusionResult from models.py. -/
structure ExclusionResult where
  excluded : Bool
  reasons : List String := []
deriving DecidableEq, Repr

/-- PolicyConfig from models.py (fields the claims exercise). -/
structure PolicyConfig where
  exclude_by : String := "item_group_id"
  exclude_lookback_days : Nat := 14
  max_items : Int := 20
  category_cap : Option Nat := none
  min_match_rate_for_high_confidence : Rat := 1/2
deriving DecidableEq, Repr

/-- PolicyOutcome from models.py. -/
structure PolicyOutcome where
  selected_items : List ActivationItem
  excluded_items : List ActivationItem
  excluded_count : Nat
  candidates_count : Nat
  match_rate : Rat
  drivers : List String
  computed_confidence : String
deriving DecidableEq, Repr

/-! ### Ordering (domain/activation_policy/ordering.py) -/

/-- Three-way comparison on rationals (the order Python uses on floats). -/
def cmpRat (a b : Rat) : Ordering :=
  if a < b then Ordering.lt else if b < a then Ordering.gt else Ordering.eq

/-- Three-way comparison of the optional ad_position, with the absent case
standing for `float("inf")`: absent sorts after every present value. -/
def cmpOptRat : Option Rat → Option Rat → Ordering
  | none, none => Ordering.eq
  | none, some _ => Ordering.gt
  | some _, none => Ordering.lt
  | some a, some b => cmpRat a b

/-- Three-way comparison of characters by code point, Python's comparison
on the characters of a str. -/
def cmpChar (a b : Char) : Ordering :=
  if a < b then Ordering.lt else if b < a then Ordering.gt else Ordering.eq

/-- Lexicographic three-way comparison of character lists: Python's string
comparison. -/
def cmpCharList : List Char → List Char → Ordering
  | [], [] => Ordering.eq
  | [], _ :: _ => Ordering.lt
  | _ :: _, [] => Ordering.gt
  | a :: as, b :: bs => (cmpChar a b).then (cmpCharList as bs)

/-- Second component of the sort key in stable_rank: metadata "ad_position"
ascending when present, `float("inf")` (modelled as the absent case of
cmpOptRat) when absent. The source compares the stored value numerically, so
only numeric metadata values are meaningful; a non-numeric value would raise
a TypeError in Python and is mapped to the absent case here. -/
def adPositionKey (i : ActivationItem) : Option Rat :=
  match dictGet i.metadata "ad_position" with
  | some (MetaVal.num v) => some v
  | _ => none

/-- Third component of the sort key: Python `item.gtin or item.item_group_id
or ""`, i.e. the gtin when present and non-empty, else the item_group_id
(the final `or ""` only re-produces an empty item_group_id). -/
def tieBreakKey (i : ActivationItem) : String :=
  match i.gtin with
  | some g => if g = "" then i.item_group_id else g
  | none => i.item_group_id

/-- The full sort key of stable_rank: the tuple
`(-score, ad_position-or-inf, gtin-or-item_group_id)` built by `sort_key`
in ordering.py (string compared as its character list). -/
def sortKey (i : ActivationItem) : Rat × Option Rat × List Char :=
  (-i.score, adPositionKey i, (tieBreakKey i).data)

/-- Python's lexicographic comparison of the sort-key tuples. -/
def cmpTriple (x y : Rat × Option Rat × List Char) : Ordering :=
  (cmpRat x.1 y.1).then ((cmpOptRat x.2.1 y.2.1).then (cmpCharList x.2.2 y.2.2))

/-- Three-way comparison of two items by their sort keys. -/
def cmpKey (a b : ActivationItem) : Ordering :=
  cmpTriple (sortKey a) (sortKey b)

/-- The order Python's stable `sorted` realizes on items: `a` may precede
`b` exactly when the key of `a` is not strictly greater than the key of
`b`. -/
def rankLE (a b : ActivationItem) : Prop :=
  cmpKey a b ≠ Ordering.gt

instance : DecidableRel rankLE :=
  fun a b => inferInstanceAs (Decidable (cmpKey a b ≠ Ordering.gt))

/-- stable_rank from ordering.py: Python's `sorted(items, key=sort_key)` is
the stable sort by `rankLE`; stable sorts are extensionally unique, so it is
embedded as the stable insertion sort by the same comparison. -/
def stable_rank (items : List ActivationItem) : List ActivationItem :=
  List.insertionSort rankLE items

/-- compute_match_rate from ordering.py: fraction of items with score > 0,
and 0.0 on an empty list. -/
def compute_match_rate (items : List ActivationItem) : Rat :=
  if items = [] then 0
  else ((items.countP (fun i => decide (0 < i.score)) : Nat) : Rat) / (items.length : Rat)

/-! ### Exclusions (domain/activation_policy/exclusions.py) -/

/-- exclude_if_in_set from exclusions.py. -/
def exclude_if_in_set (item : ActivationItem) (excluded_group_ids : List String)
    (reason : String := "WEEKLY_AD_OVERLAP_EXCLUSION") : ExclusionResult :=
  if item.item_group_id ∈ excluded_group_ids then
    { excluded := true, reasons := [reason] }
  else { excluded := false, reasons := [] }

/-- Inner loop of apply_exclusions over one item: walk the exclusion checks
in order, accumulating (all_reasons, is_excluded, reason_counts) from the
initial accumulator. Reasons and the flag restart per item;
reason_counts is threaded across items. -/
def applyChecksToItem (exclusion_checks : List (ActivationItem → ExclusionResult))
    (item : ActivationItem) (acc : List String × Bool × List (String × Nat)) :
    List String × Bool × List (String × Nat) :=
  match exclusion_checks with
  | [] => acc
  | check :: rest =>
    let result := check item
    if result.excluded then
      applyChecksToItem rest item
        (acc.1 ++ result.reasons, true, result.reasons.foldl bumpCount acc.2.2)
    else applyChecksToItem rest item acc

/-- Outer loop of apply_exclusions: walk the items in order, appending each
to eligible or (as a marked copy) to excluded. -/
def applyExclusionsLoop (exclusion_checks : List (ActivationItem → ExclusionResult)) :
    List ActivationItem → List ActivationItem × List ActivationItem × List (String × Nat) →
      List ActivationItem × List ActivationItem × List (String × Nat)
  | [], acc => acc
  | item :: rest, acc =>
    let step := applyChecksToItem exclusion_checks item ([], false, acc.2.2)
    if step.2.1 then
      let excluded_item : ActivationItem :=
        { item with metadata := dictSet item.metadata "excluded_reasons" (MetaVal.strList step.1) }
      applyExclusionsLoop exclusion_checks rest (acc.1, acc.2.1 ++ [excluded_item], step.2.2)
    else
      applyExclusionsLoop exclusion_checks rest (acc.1 ++ [item], acc.2.1, step.2.2)

/-- apply_exclusions from exclusions.py: returns (eligible, excluded,
reason_counts); an excluded item is a fresh copy whose metadata dict gains
the key "excluded_reasons" holding all accumulated reasons. -/
def apply_exclusions (items : List ActivationItem)
    (exclusion_checks : List (ActivationItem → ExclusionResult)) :
    List ActivationItem × List ActivationItem × List (String × Nat) :=
  applyExclusionsLoop exclusion_checks items ([], [], [])

/-- Whether any exclusion check matches the item (the value of `is_excluded`
after the inner loop). -/
def anyExcluded (exclusion_checks : List (ActivationItem → ExclusionResult))
    (item : ActivationItem) : Bool :=
  exclusion_checks.any (fun check => (check item).excluded)

/-- The exact union of reasons from every matching check, in check order (the
value of `all_reasons` after the inner loop). -/
def unionReasons (exclusion_checks : List (ActivationItem → ExclusionResult))
    (item : ActivationItem) : List String :=
  (exclusion_checks.map
    (fun check => if (check item).excluded then (check item).reasons else [])).flatten

/-- The fresh excluded copy of an item built by apply_exclusions. -/
def markExcluded (exclusion_checks : List (ActivationItem → ExclusionResult))
    (item : ActivationItem) : ActivationItem :=
  { item with
    metadata := dictSet item.metadata "excluded_reasons"
      (MetaVal.strList (unionReasons exclusion_checks item)) }

/-! ### Selection (domain/activation_policy/selection.py) -/

/-- apply_max_items from selection.py: the Python slice `items[:max_items]`.
For a non-negative bound this is a prefix; for a negative bound Python's
slice semantics give `stop = max(0, len(items) + max_items)`. -/
def apply_max_items (items : List ActivationItem) (max_items : Int) : List ActivationItem :=
  items.take (if 0 ≤ max_items then max_items.toNat else ((items.length : Int) + max_items).toNat)

/-! ### Outcome builder (domain/activation_policy/__init__.py) -/

/-- build_policy_outcome from activation_policy/__init__.py: the confidence
if-chain is translated branch for branch. -/
def build_policy_outcome (selected_items excluded_items : List ActivationItem)
    (candidates_count : Nat) (match_rate : Rat) (drivers : List String)
    (config : PolicyConfig) : PolicyOutcome :=
  let computed_confidence :=
    if selected_items = [] then "LOW"
    else if config.min_match_rate_for_high_confidence ≤ match_rate then "HIGH"
    else if 0 < match_rate then "MEDIUM"
    else "LOW"
  { selected_items := selected_items
    excluded_items := excluded_items
    excluded_count := excluded_items.length
    candidates_count := candidates_count
    match_rate := match_rate
    drivers := drivers
    computed_confidence := computed_confidence }

/-! ### Common domain values (domain/common/*.py)

Datetimes are modelled as integer timestamps, identifier wrappers
(TenantId, SubjectId, CorrelationId) as their underlying strings. -/

/-- VersionInfo from domain/common/versioning.py. -/
structure VersionInfo where
  primitive_version : String
  canonical_version : String
  config_version : String
deriving DecidableEq, Repr

/-- DecisionResult from domain/common/decision.py. `metrics` is a
JSON-compatible str→float map. -/
structure DecisionResult where
  state : String
  confidence : String
  drivers : List String
  metrics : List (String × Rat)
  evidence_refs : List String
  versions : VersionInfo
  computed_at : Int := 0
  valid_until : Option Int := none
deriving DecidableEq, Repr

/-- Evidence from domain/common/evidence.py; thresholds and references are
JSON-compatible maps, modelled with string-encoded values. -/
structure Evidence where
  evidence_id : String
  rule_ids : List String
  thresholds : List (String × String) := []
  references : List (String × String) := []
  observed_at : Int := 0
deriving DecidableEq, Repr

/-- EvidenceSet from domain/common/evidence.py. -/
structure EvidenceSet where
  evidence : List Evidence
deriving DecidableEq, Repr

/-- RunContext from application/run_context.py. -/
structure RunContext where
  tenant_id : String
  primitive_name : String
  primitive_version : String
  as_of_ts : Int
  config_version : String
  correlation_id : String
deriving DecidableEq, Repr

/-- CommonInput from domain/common/input_protocol.py: the shared fields of
every primitive input row; `payload` stands for the primitive-specific
remainder of the concrete input class. -/
structure CommonInput where
  tenant_id : String
  subject_type : String
  subject_id : String
  as_of_ts : Int
  config_version : String
  payload : String := ""
deriving DecidableEq, Repr

/-! ### Idempotent output persistence
(adapters/databricks/outputs_repo.py)

A warehouse table is a list of rows; a MERGE upserts row by row on the
natural key (matched rows updated in place, unmatched rows appended) and a
DELETE removes every row whose key occurs in a given key list. The time
columns (computed_at, valid_until inside a run, created_at, updated_at)
are populated from now() at write time and are excluded from the row model,
mirroring the claim's restriction to non-time fields. -/

section Table

variable {Row Key : Type} [DecidableEq Key]

/-- One MERGE statement over a batch: each source row in order updates the
matched target row in place or is appended, matching on the natural key. -/
def mergeUpsert (key : Row → Key) (table : List Row) : List Row → List Row
  | [] => table
  | row :: rest =>
    if table.any (fun r => decide (key r = key row)) then
      mergeUpsert key (table.map (fun r => if key r = key row then row else r)) rest
    else mergeUpsert key (table ++ [row]) rest

/-- The DELETE phase: remove every row whose key is among the batch's own
keys (the WHERE clause of _write_decisions_delete_insert is the disjunction
of exactly the batch's key tuples). -/
def deleteKeys (key : Row → Key) (table : List Row) (ks : List Key) : List Row :=
  table.filter (fun r => !(decide (key r ∈ ks)))

/-- DELETE-then-INSERT for one batch: delete by the batch's own keys, then
run the MERGE code path on the same batch
(_write_decisions_delete_insert / _write_evidence_delete_insert). -/
def deleteInsert (key : Row → Key) (table : List Row) (batch : List Row) : List Row :=
  mergeUpsert key (deleteKeys key table (batch.map key)) batch

/-- The write loop of write_decisions / write_evidence in delete+insert
mode: one DELETE-then-INSERT per batch, in order. -/
def writeBatches (key : Row → Key) (table : List Row) : List (List Row) → List Row
  | [] => table
  | b :: bs => writeBatches key (deleteInsert key table b) bs

/-- Rows surviving to the final table out of the batches themselves: each
batch's self-merge, minus rows whose key reappears in a later batch. -/
def residualRows (key : Row → Key) : List (List Row) → List Row
  | [] => []
  | b :: bs =>
    (mergeUpsert key [] b).filter
      (fun r => !(decide (key r ∈ bs.flatten.map key))) ++ residualRows key bs

end Table

/-- Batching: Python `range(0, len(rows), BATCH_SIZE)` slicing, i.e.
consecutive chunks of at most `n` rows (`n` = 1000 in the source). -/
def chunkBy {α : Type} (n : Nat) : List α → List (List α)
  | [] => []
  | x :: xs => (x :: xs.take (n - 1)) :: chunkBy n (xs.drop (n - 1))
termination_by l => l.length
decreasing_by
  simp only [List.length_drop, List.length_cons]
  omega

/-- BATCH_SIZE from outputs_repo.py. -/
def BATCH_SIZE : Nat := 1000

/-- Natural key of a decision row: the six-column ON/WHERE clause shared by
the MERGE and the DELETE of the decisions table. -/
structure DecisionKey where
  tenant_id : String
  subject_type : String
  subject_id : String
  primitive_name : String
  primitive_version : String
  as_of_ts : Int
deriving DecidableEq, Repr

/-- Key derivation used by both the DELETE scope and the MERGE ON clause
for decisions: subject fields from the input row, primitive identity from
the RunContext. -/
def decisionKey (ctx : RunContext) (input : CommonInput) : DecisionKey :=
  { tenant_id := input.tenant_id
    subject_type := input.subject_type
    subject_id := input.subject_id
    primitive_name := ctx.primitive_name
    primitive_version := ctx.primitive_version
    as_of_ts := input.as_of_ts }

/-- Non-time columns of a persisted decision row (drivers/metrics/
evidence_refs stand for their deterministic JSON encodings). -/
structure DecisionRow where
  key : DecisionKey
  canonical_version : String
  config_version : String
  decision_state : String
  confidence : String
  drivers : List String
  metrics : List (String × Rat)
  evidence_refs : List String
  correlation_id : String
  adapter_mode : String
deriving DecidableEq, Repr

/-- The source row built for one (decision, input) pair by
_write_decisions_merge. -/
def decisionRow (ctx : RunContext) (d : DecisionResult) (input : CommonInput) : DecisionRow :=
  { key := decisionKey ctx input
    canonical_version := d.versions.canonical_version
    config_version := input.config_version
    decision_state := d.state
    confidence := d.confidence
    drivers := d.drivers
    metrics := d.metrics
    evidence_refs := d.evidence_refs
    correlation_id := ctx.correlation_id
    adapter_mode := "databricks" }

/-- write_decisions in delete+insert mode: zip decisions with inputs,
batch, and run DELETE-then-INSERT per batch. -/
def write_decisions_delete_insert (ctx : RunContext) (decisions : List DecisionResult)
    (inputs : List CommonInput) (table : List DecisionRow) : List DecisionRow :=
  let rows := (decisions.zip inputs).map (fun p => decisionRow ctx p.1 p.2)
  writeBatches DecisionRow.key table (chunkBy BATCH_SIZE rows)

/-- Natural key of an evidence row: the (tenant_id, evidence_id) ON/WHERE
clause shared by the evidence MERGE and DELETE. -/
structure EvidenceKey where
  tenant_id : String
  evidence_id : String
deriving DecidableEq, Repr

/-- Non-time columns of a persisted evidence row. -/
structure EvidenceRow where
  key : EvidenceKey
  subject_type : String
  subject_id : String
  primitive_name : String
  primitive_version : String
  canonical_version : String
  config_version : String
  as_of_ts : Int
  rule_ids : List String
  thresholds : List (String × String)
  references : List (String × String)
  correlation_id : String
  adapter_mode : String
deriving DecidableEq, Repr

/-- The source row built for one flattened (evidence, input, decision)
record by _write_evidence_merge. -/
def evidenceRow (ctx : RunContext) (e : Evidence) (input : CommonInput)
    (d : DecisionResult) : EvidenceRow :=
  { key := { tenant_id := input.tenant_id, evidence_id := e.evidence_id }
    subject_type := input.subject_type
    subject_id := input.subject_id
    primitive_name := ctx.primitive_name
    primitive_version := ctx.primitive_version
    canonical_version := d.versions.canonical_version
    config_version := input.config_version
    as_of_ts := input.as_of_ts
    rule_ids := e.rule_ids
    thresholds := e.thresholds
    references := e.references
    correlation_id := ctx.correlation_id
    adapter_mode := "databricks" }

/-- Flattening of write_evidence: evidence sets are zipped with inputs and
decisions, then each set contributes one record per contained evidence. -/
def evidenceRecords (ctx : RunContext) (evidence_sets : List EvidenceSet)
    (inputs : List CommonInput) (decisions : List DecisionResult) : List EvidenceRow :=
  ((evidence_sets.zip (inputs.zip decisions)).map
    (fun p => p.1.evidence.map (fun e => evidenceRow ctx e p.2.1 p.2.2))).flatten

/-- write_evidence in delete+insert mode. -/
def write_evidence_delete_insert (ctx : RunContext) (evidence_sets : List EvidenceSet)
    (inputs : List CommonInput) (decisions : List DecisionResult)
    (table : List EvidenceRow) : List EvidenceRow :=
  writeBatches EvidenceRow.key table
    (chunkBy BATCH_SIZE (evidenceRecords ctx evidence_sets inputs decisions))

/-! ### Registry (application/registry.py) -/

/-- Exception taxonomy relevant to the Runner
(application/errors.py plus the built-in exceptions the ports can raise).
RunCancelledError, UnknownPrimitiveError, PrimitiveVersionMismatch and
ProvisioningError are the named classes; `other` stands for any other
exception propagating out of a collaborator. -/
inductive RunError
  | cancelled
  | unknownPrimitive
  | versionMismatch
  | provisioning
  | other
deriving DecidableEq, Repr

/-- Registry state: which (primitive_name, primitive_version) pairs have a
registered evaluator, and which primitive names have an input-fetch method
name. The registered evaluator functions themselves are supplied by the run
environment; the Registry decides lookup success and the error class. -/
structure Registry where
  evaluatorKeys : List (String × String)
  inputFetchers : List (String × String)
deriving DecidableEq, Repr

/-- The registrations performed in Registry.__init__. -/
def defaultRegistry : Registry :=
  { evaluatorKeys :=
      [("operational_risk", "1.0.0"),
       ("shopper_frequency_trend", "1.0.0"),
       ("shopper_health_classification", "1.0.0"),
       ("shopper_item_affinity_score", "1.0.0"),
       ("order_line_fulfillment_risk", "1.0.0"),
       ("order_fulfillment_risk", "1.0.0"),
       ("customer_order_impact_risk", "1.0.0"),
       ("shopper_weekly_ad_slate", "1.0.0"),
       ("shopper_coupon_offer_set", "1.0.0")]
    inputFetchers :=
      [("operational_risk", "fetch_operational_risk_inputs"),
       ("shopper_frequency_trend", "fetch_shopper_frequency_inputs"),
       ("shopper_health_classification", "fetch_shopper_health_inputs"),
       ("shopper_item_affinity_score", "fetch_shopper_item_affinity_inputs"),
       ("order_line_fulfillment_risk", "fetch_order_line_fulfillment_inputs"),
       ("order_fulfillment_risk", "fetch_order_risk_inputs"),
       ("customer_order_impact_risk", "fetch_customer_impact_inputs"),
       ("shopper_weekly_ad_slate", "fetch_shopper_weekly_ad_slate_inputs"),
       ("shopper_coupon_offer_set", "fetch_shopper_coupon_offer_set_inputs")]}

/-- Registry.ensure_version: raises PrimitiveVersionMismatch when the
(name, requested_version) pair is not registered. -/
def Registry.ensure_version (r : Registry) (primitive_name requested_version : String)
    (_config_version : String) : Except RunError Unit :=
  if (primitive_name, requested_version) ∈ r.evaluatorKeys then Except.ok ()
  else Except.error RunError.versionMismatch

/-- Registry.get: raises UnknownPrimitiveError when the (name, version)
pair is not registered (returning the registered evaluator otherwise,
represented here by the unit witness of success). -/
def Registry.get (r : Registry) (primitive_name primitive_version : String) :
    Except RunError Unit :=
  if (primitive_name, primitive_version) ∈ r.evaluatorKeys then Except.ok ()
  else Except.error RunError.unknownPrimitive

/-- Registry.get_input_fetch_method: the fetch-method name, or
UnknownPrimitiveError when the primitive has none registered. -/
def Registry.get_input_fetch_method (r : Registry) (primitive_name : String) :
    Except RunError String :=
  match dictGet r.inputFetchers primitive_name with
  | some m => Except.ok m
  | none => Except.error RunError.unknownPrimitive

/-! ### Runner (application/runner.py)

Runner.run is embedded as a function from an environment (the injected
collaborators together with the outcomes their calls would produce) and a
RunContext to the effect trace of the run plus its Python-level outcome
(returned summary or propagated exception). -/

/-- Config object returned by ConfigProvider.get_config; the runner reads
only canonical_version, the rest flows opaquely into the evaluator. -/
structure Config where
  canonical_version : String
deriving DecidableEq, Repr

/-- One evaluator emission: the (decision, evidence_set) pair carried by a
non-nil evaluator result. -/
structure EvalResult where
  decision : DecisionResult
  evidence_set : EvidenceSet
deriving DecidableEq, Repr

/-- Status of the run-registry audit row as requested by the runner through
register_run_started / register_run_completed / register_run_failed. -/
inductive AuditStatus
  | started
  | success
  | failed
deriving DecidableEq, Repr

/-- Values appearing in the summary dict returned by Runner.run. -/
inductive SummaryVal
  | s (v : String)
  | n (v : Nat)
  | counts (v : List (String × Nat))
deriving DecidableEq, Repr

/-- The summary dict, in insertion order. -/
abbrev Summary := List (String × SummaryVal)

/-- Injected collaborators of Runner.run together with the outcomes each
external call would produce. The evaluator is total over the model's input
type but may raise (Except.error) or emit nil (Except.ok none), matching the
`(Input, Config) -> (Decision, EvidenceSet) | nil` contract. The
cancellation callable is modelled as a function of the poll index. -/
structure RunnerEnv where
  readinessEnabled : Bool
  readinessOutcome : Except RunError Unit
  configOutcome : Except RunError Config
  supportsRunStarted : Bool
  registerStartedOutcome : Except RunError Unit
  registry : Registry
  evaluator : CommonInput → Config → Except RunError (Option EvalResult)
  inputs : List CommonInput
  cancel : Nat → Bool
  writeDecisionsOutcome : Except RunError Unit
  writeEvidenceOutcome : Except RunError Unit
  supportsRunCompleted : Bool
  supportsRunFailed : Bool
  publishOutcome : Except RunError Unit
  durationMs : Nat

/-- Effect trace of one Runner.run invocation. `decisionsWrite` /
`evidenceWrite` hold the payload passed to the single write_decisions /
write_evidence call when that call happened, `audit` the last audit status
the runner registered, and `published` the summary handed to the event
publisher. -/
structure RunState where
  lockAcquired : Nat := 0
  lockReleased : Nat := 0
  readinessChecked : Bool := false
  configConsulted : Bool := false
  registerStartedCalled : Bool := false
  audit : Option AuditStatus := none
  inputsFetched : Nat := 0
  decisionsWrite : Option (List DecisionResult × List CommonInput) := none
  evidenceWrite : Option (List EvidenceSet × List CommonInput × List DecisionResult) := none
  published : Option Summary := none
deriving Repr

/-- The evaluation loop: pull the next input, poll the cancellation
callable, evaluate; abort on cancellation or evaluator exception. Returns
the paired (input, result) list (or the propagated error) together with the
number of inputs pulled from the stream. -/
def evalLoop (ev : CommonInput → Config → Except RunError (Option EvalResult))
    (cfg : Config) (cancel : Nat → Bool) :
    List CommonInput → Nat → Except RunError (List (CommonInput × Option EvalResult)) × Nat
  | [], _ => (Except.ok [], 0)
  | i :: rest, k =>
    if cancel k then (Except.error RunError.cancelled, 1)
    else
      match ev i cfg with
      | Except.error e => (Except.error e, 1)
      | Except.ok r =>
        let next := evalLoop ev cfg cancel rest (k + 1)
        ((next.1).map (fun l => (i, r) :: l), next.2 + 1)

/-- Python `state_counts[d.state] = state_counts.get(d.state, 0) + 1` over
the decision list. -/
def countStates (ds : List DecisionResult) : List (String × Nat) :=
  ds.foldl (fun m d => bumpCount m d.state) []

/-- The summary dict Runner.run builds on success, in the literal key order
of the source (note the emitted count is stored under the key "count"),
including the operational_risk backward-compatibility keys. -/
def buildSummary (ctx : RunContext) (emittedCount evaluatedCount : Nat)
    (stateCounts : List (String × Nat)) (durationMs : Nat) : Summary :=
  [("tenant_id", SummaryVal.s ctx.tenant_id),
   ("primitive_name", SummaryVal.s ctx.primitive_name),
   ("primitive_version", SummaryVal.s ctx.primitive_version),
   ("config_version", SummaryVal.s ctx.config_version),
   ("count", SummaryVal.n emittedCount),
   ("evaluated_count", SummaryVal.n evaluatedCount),
   ("state_counts", SummaryVal.counts stateCounts),
   ("duration_ms", SummaryVal.n durationMs)] ++
  (if ctx.primitive_name = "operational_risk" then
    [("at_risk_count", SummaryVal.n ((dictGet stateCounts "AT_RISK").getD 0)),
     ("not_at_risk_count", SummaryVal.n ((dictGet stateCounts "NOT_AT_RISK").getD 0)),
     ("unknown_count", SummaryVal.n ((dictGet stateCounts "UNKNOWN").getD 0))]
  else [])

/-- The `except ... register_run_failed ... raise` handlers followed by the
`finally` lock release: both handlers register FAILED (best-effort, when
the repository supports it) and re-raise, and the finally block always
releases the lock. -/
def finishFailure (env : RunnerEnv) (s : RunState) (e : RunError) :
    RunState × Except RunError Summary :=
  ({ s with
      audit := if env.supportsRunFailed then some AuditStatus.failed else s.audit
      lockReleased := s.lockReleased + 1 },
   Except.error e)

/-- The try block of Runner.run (runner.py lines 66-149): registry checks,
evaluation loop, sparse-emission filter, persistence, audit bookkeeping,
summary construction and publication — under the except handlers and the
finally lock release modelled by finishFailure / the final release. -/
def runTryBlock (env : RunnerEnv) (ctx : RunContext) (config : Config)
    (s : RunState) : RunState × Except RunError Summary :=
  match env.registry.ensure_version ctx.primitive_name ctx.primitive_version ctx.config_version with
  | Except.error e => finishFailure env s e
  | Except.ok () =>
  match env.registry.get ctx.primitive_name ctx.primitive_version with
  | Except.error e => finishFailure env s e
  | Except.ok () =>
  match env.registry.get_input_fetch_method ctx.primitive_name with
  | Except.error e => finishFailure env s e
  | Except.ok _fetchMethodName =>
  let loop := evalLoop env.evaluator config env.cancel env.inputs 0
  let s := { s with inputsFetched := loop.2 }
  match loop.1 with
  | Except.error e => finishFailure env s e
  | Except.ok pairs =>
  let filtered := pairs.filterMap (fun p => p.2.map (fun r => (p.1, r)))
  let filteredInputs := filtered.map (fun p => p.1)
  let decisions := filtered.map (fun p => p.2.decision)
  let evidenceSets := filtered.map (fun p => p.2.evidence_set)
  let s := { s with decisionsWrite := some (decisions, filteredInputs) }
  match env.writeDecisionsOutcome with
  | Except.error e => finishFailure env s e
  | Except.ok () =>
  let s := { s with evidenceWrite := some (evidenceSets, filteredInputs, decisions) }
  match env.writeEvidenceOutcome with
  | Except.error e => finishFailure env s e
  | Except.ok () =>
  let stateCounts := countStates decisions
  let s := { s with
    audit := if env.supportsRunCompleted then some AuditStatus.success else s.audit }
  let summary := buildSummary ctx filtered.length pairs.length stateCounts env.durationMs
  match env.publishOutcome with
  | Except.error e => finishFailure env s e
  | Except.ok () =>
  ({ s with published := some summary, lockReleased := s.lockReleased + 1 },
   Except.ok summary)

/-- Runner.run (runner.py lines 45-149). The lock is acquired first; the
readiness gate, config resolution and run-started registration happen
before the try block, so an exception raised by any of them propagates
directly; from the try block on, failures flow through runTryBlock's
handler/finally semantics. -/
def runRunner (env : RunnerEnv) (ctx : RunContext) :
    RunState × Except RunError Summary :=
  let s0 : RunState := { lockAcquired := 1 }
  match (if env.readinessEnabled then env.readinessOutcome else Except.ok ()) with
  | Except.error e => ({ s0 with readinessChecked := env.readinessEnabled }, Except.error e)
  | Except.ok () =>
  let s1 := { s0 with readinessChecked := env.readinessEnabled }
  match env.configOutcome with
  | Except.error e => ({ s1 with configConsulted := true }, Except.error e)
  | Except.ok config =>
  let s2 := { s1 with configConsulted := true }
  match (if env.supportsRunStarted then env.registerStartedOutcome else Except.ok ()) with
  | Except.error e => ({ s2 with registerStartedCalled := env.supportsRunStarted }, Except.error e)
  | Except.ok () =>
  let s3 := { s2 with
    registerStartedCalled := env.supportsRunStarted
    audit := if env.supportsRunStarted then some AuditStatus.started else none }
  runTryBlock env ctx config s3

/-! ### Concrete fixtures used by witnesses and counterexamples -/

/-- Two items with identical sort keys (same score, no ad_position, same
item_group_id, no gtin) but different categories. -/
def tieItemA : ActivationItem :=
  { item_group_id := "A", category := some "dairy", score := 1 }

/-- Companion of tieItemA with a different category. -/
def tieItemB : ActivationItem :=
  { item_group_id := "A", category := some "produce", score := 1 }

/-- Three distinct-key items (the spec §8 ranking example shape). -/
def rankItemA : ActivationItem := { item_group_id := "A", score := 9 }

/-- Item ranked second in the example. -/
def rankItemB : ActivationItem := { item_group_id := "B", score := 9 }

/-- Item ranked last in the example. -/
def rankItemC : ActivationItem := { item_group_id := "C", score := 3 }

/-- An item with score zero (for the all-zero-score confidence case). -/
def zeroScoreItem : ActivationItem := { item_group_id := "Z", score := 0 }

/-- A PolicyConfig whose high-confidence threshold is zero. -/
def zeroThresholdConfig : PolicyConfig := { min_match_rate_for_high_confidence := 0 }

/-- A PolicyConfig with a positive (integral, kernel-computable) threshold. -/
def oneThresholdConfig : PolicyConfig := { min_match_rate_for_high_confidence := 1 }

/-- The exclusion check of the spec §8 example: exclude item_group_id "A". -/
def demoCheck : ActivationItem → ExclusionResult :=
  fun i => exclude_if_in_set i ["A"]

/-- A concrete RunContext. -/
def demoCtx : RunContext :=
  { tenant_id := "t1", primitive_name := "operational_risk", primitive_version := "1.0.0",
    as_of_ts := 5, config_version := "c1", correlation_id := "corr-1" }

/-- The same RunContext asking for an unregistered primitive version. -/
def badVersionCtx : RunContext := { demoCtx with primitive_version := "9.9.9" }

/-- A concrete input row, one per subject id. -/
def demoInput (j : Nat) : CommonInput :=
  { tenant_id := "t1", subject_type := "store", subject_id := toString j,
    as_of_ts := 5, config_version := "c1" }

/-- A concrete non-nil evaluator emission. -/
def demoEmit (i : CommonInput) (c : Config) : EvalResult :=
  { decision :=
      { state := "AT_RISK", confidence := "HIGH", drivers := ["d1"], metrics := []
        evidence_refs := ["ev1"]
        versions :=
          { primitive_version := "1.0.0", canonical_version := c.canonical_version,
            config_version := i.config_version } }
    evidence_set := { evidence := [{ evidence_id := "ev1", rule_ids := ["r1"] }] } }

/-- A fully healthy environment: readiness disabled, config resolves, all
ports succeed, three inputs, never cancelled, evaluator emits nil for every
input (sparse emission). -/
def demoEnv : RunnerEnv :=
  { readinessEnabled := false
    readinessOutcome := Except.ok ()
    configOutcome := Except.ok { canonical_version := "v1" }
    supportsRunStarted := true
    registerStartedOutcome := Except.ok ()
    registry := defaultRegistry
    evaluator := fun _ _ => Except.ok none
    inputs := [demoInput 0, demoInput 1, demoInput 2]
    cancel := fun _ => false
    writeDecisionsOutcome := Except.ok ()
    writeEvidenceOutcome := Except.ok ()
    supportsRunCompleted := true
    supportsRunFailed := true
    publishOutcome := Except.ok ()
    durationMs := 7 }

/-- demoEnv with a failing config provider. -/
def configFailEnv : RunnerEnv := { demoEnv with configOutcome := Except.error RunError.other }

/-- demoEnv with the cancellation flag set from the second poll on and a
non-nil evaluator. -/
def cancelEnv : RunnerEnv :=
  { demoEnv with
    cancel := fun k => decide (1 ≤ k)
    evaluator := fun i c => Except.ok (some (demoEmit i c)) }

/-- demoEnv whose evaluator raises on subject "1" (the second input) and
emits normally elsewhere. -/
def evalErrEnv : RunnerEnv :=
  { demoEnv with
    evaluator := fun i c =>
      if i.subject_id = "1" then Except.error RunError.other
      else Except.ok (some (demoEmit i c)) }

/-- A concrete decision for persistence fixtures. -/
def demoDecision : DecisionResult :=
  { state := "AT_RISK", confidence := "HIGH", drivers := ["d1"], metrics := [("m", 2)]
    evidence_refs := ["ev1"]
    versions :=
      { primitive_version := "1.0.0", canonical_version := "v1", config_version := "c1" } }

/-- A concrete evidence set for persistence fixtures. -/
def demoEvidenceSet : EvidenceSet :=
  { evidence := [{ evidence_id := "ev1", rule_ids := ["r1"] }] }

/-! ## Theorems -/

/-! ### Order theory of the stable_rank comparison -/

theorem Ordering.thenCmp_eq_lt {c₁ c₂ : Ordering} :
    c₁.then c₂ = Ordering.lt ↔ c₁ = Ordering.lt ∨ (c₁ = Ordering.eq ∧ c₂ = Ordering.lt) := by
  cases c₁ <;> simp [Ordering.then]

theorem Ordering.thenCmp_eq_eq {c₁ c₂ : Ordering} :
    c₁.then c₂ = Ordering.eq ↔ c₁ = Ordering.eq ∧ c₂ = Ordering.eq := by
  cases c₁ <;> simp [Ordering.then]

theorem Ordering.swap_thenCmp {c₁ c₂ : Ordering} :
    (c₁.then c₂).swap = c₁.swap.then c₂.swap := by
  cases c₁ <;> rfl

theorem cmpRat_eq_lt {a b : Rat} : cmpRat a b = Ordering.lt ↔ a < b := by
  unfold cmpRat
  split_ifs with h₁ h₂ <;> simp [h₁]

theorem cmpRat_eq_eq {a b : Rat} : cmpRat a b = Ordering.eq ↔ a = b := by
  unfold cmpRat
  split_ifs with h₁ h₂
  · simp [h₁.ne]
  · simp [h₂.ne']
  · simp [le_antisymm (not_lt.mp h₂) (not_lt.mp h₁)]

theorem cmpRat_swap {a b : Rat} : cmpRat b a = (cmpRat a b).swap := by
  unfold cmpRat
  rcases lt_trichotomy a b with h | h | h
  · simp [h, lt_asymm h, Ordering.swap]
  · simp [h, lt_irrefl, Ordering.swap]
  · simp [h, lt_asymm h, Ordering.swap]

theorem cmpChar_eq_lt {a b : Char} : cmpChar a b = Ordering.lt ↔ a < b := by
  unfold cmpChar
  split_ifs with h₁ h₂ <;> simp [h₁]

theorem cmpChar_eq_eq {a b : Char} : cmpChar a b = Ordering.eq ↔ a = b := by
  unfold cmpChar
  split_ifs with h₁ h₂
  · simp [h₁.ne]
  · simp [h₂.ne']
  · simp [le_antisymm (not_lt.mp h₂) (not_lt.mp h₁)]

theorem cmpChar_swap {a b : Char} : cmpChar b a = (cmpChar a b).swap := by
  unfold cmpChar
  rcases lt_trichotomy a b with h | h | h
  · simp [h, lt_asymm h, Ordering.swap]
  · simp [h, lt_irrefl, Ordering.swap]
  · simp [h, lt_asymm h, Ordering.swap]

theorem cmpOptRat_eq_eq {a b : Option Rat} : cmpOptRat a b = Ordering.eq ↔ a = b := by
  cases a with
  | none => cases b <;> simp [cmpOptRat]
  | some x =>
    cases b with
    | none => simp [cmpOptRat]
    | some y => simp [cmpOptRat, cmpRat_eq_eq]

theorem cmpOptRat_swap {a b : Option Rat} : cmpOptRat b a = (cmpOptRat a b).swap := by
  cases a with
  | none => cases b <;> rfl
  | some x =>
    cases b with
    | none => rfl
    | some y => simp only [cmpOptRat]; exact cmpRat_swap

theorem cmpOptRat_lt_trans {a b c : Option Rat} (h₁ : cmpOptRat a b = Ordering.lt)
    (h₂ : cmpOptRat b c = Ordering.lt) : cmpOptRat a c = Ordering.lt := by
  cases a with
  | none => cases b <;> simp [cmpOptRat] at h₁
  | some x =>
    cases c with
    | none => rfl
    | some z =>
      cases b with
      | none => simp [cmpOptRat] at h₂
      | some y =>
        simp only [cmpOptRat, cmpRat_eq_lt] at h₁ h₂ ⊢
        exact lt_trans h₁ h₂

theorem cmpCharList_eq_eq {as bs : List Char} :
    cmpCharList as bs = Ordering.eq ↔ as = bs := by
  induction as generalizing bs with
  | nil => cases bs <;> simp [cmpCharList]
  | cons a as ih =>
    cases bs with
    | nil => simp [cmpCharList]
    | cons b bs =>
      simp only [cmpCharList, Ordering.thenCmp_eq_eq, cmpChar_eq_eq, ih, List.cons.injEq]

theorem cmpCharList_swap {as bs : List Char} :
    cmpCharList bs as = (cmpCharList as bs).swap := by
  induction as generalizing bs with
  | nil => cases bs <;> rfl
  | cons a as ih =>
    cases bs with
    | nil => rfl
    | cons b bs =>
      show (cmpChar b a).then (cmpCharList bs as) = ((cmpChar a b).then (cmpCharList as bs)).swap
      rw [Ordering.swap_thenCmp, ← cmpChar_swap, ← ih]

theorem cmpCharList_lt_trans {as bs cs : List Char}
    (h₁ : cmpCharList as bs = Ordering.lt) (h₂ : cmpCharList bs cs = Ordering.lt) :
    cmpCharList as cs = Ordering.lt := by
  induction as generalizing bs cs with
  | nil =>
    cases bs with
    | nil => exact h₂
    | cons b bs => cases cs with
      | nil => simp [cmpCharList] at h₂
      | cons c cs => rfl
  | cons a as ih =>
    cases bs with
    | nil => simp [cmpCharList] at h₁
    | cons b bs =>
      cases cs with
      | nil => simp [cmpCharList] at h₂
      | cons c cs =>
        simp only [cmpCharList, Ordering.thenCmp_eq_lt] at h₁ h₂ ⊢
        rcases h₁ with h₁ | ⟨h₁e, h₁t⟩
        · rcases h₂ with h₂ | ⟨h₂e, h₂t⟩
          · exact Or.inl (cmpChar_eq_lt.mpr (lt_trans (cmpChar_eq_lt.mp h₁) (cmpChar_eq_lt.mp h₂)))
          · exact Or.inl (by rw [← cmpChar_eq_eq.mp h₂e]; exact h₁)
        · rcases h₂ with h₂ | ⟨h₂e, h₂t⟩
          · exact Or.inl (by rw [cmpChar_eq_eq.mp h₁e]; exact h₂)
          · exact Or.inr ⟨by rw [cmpChar_eq_eq.mp h₁e]; exact h₂e, ih h₁t h₂t⟩

theorem cmpRat_lt_trans {a b c : Rat} (h₁ : cmpRat a b = Ordering.lt)
    (h₂ : cmpRat b c = Ordering.lt) : cmpRat a c = Ordering.lt :=
  cmpRat_eq_lt.mpr (lt_trans (cmpRat_eq_lt.mp h₁) (cmpRat_eq_lt.mp h₂))

theorem cmpTriple_eq_eq {x y : Rat × Option Rat × List Char} :
    cmpTriple x y = Ordering.eq ↔ x = y := by
  obtain ⟨x₁, x₂, x₃⟩ := x
  obtain ⟨y₁, y₂, y₃⟩ := y
  simp only [cmpTriple, Ordering.thenCmp_eq_eq, cmpRat_eq_eq, cmpOptRat_eq_eq,
    cmpCharList_eq_eq, Prod.mk.injEq]

theorem cmpTriple_swap {x y : Rat × Option Rat × List Char} :
    cmpTriple y x = (cmpTriple x y).swap := by
  unfold cmpTriple
  rw [Ordering.swap_thenCmp, Ordering.swap_thenCmp, ← cmpRat_swap, ← cmpOptRat_swap,
    ← cmpCharList_swap]

theorem cmpTriple_lt_trans {x y z : Rat × Option Rat × List Char}
    (h₁ : cmpTriple x y = Ordering.lt) (h₂ : cmpTriple y z = Ordering.lt) :
    cmpTriple x z = Ordering.lt := by
  simp only [cmpTriple, Ordering.thenCmp_eq_lt] at h₁ h₂ ⊢
  rcases h₁ with h₁ | ⟨h₁e, h₁t⟩
  · rcases h₂ with h₂ | ⟨h₂e, h₂t⟩
    · exact Or.inl (cmpRat_lt_trans h₁ h₂)
    · exact Or.inl (by rw [← cmpRat_eq_eq.mp h₂e]; exact h₁)
  · rcases h₂ with h₂ | ⟨h₂e, h₂t⟩
    · exact Or.inl (by rw [cmpRat_eq_eq.mp h₁e]; exact h₂)
    · refine Or.inr ⟨by rw [cmpRat_eq_eq.mp h₁e]; exact h₂e, ?_⟩
      rcases h₁t with h₁t | ⟨h₁te, h₁tt⟩
      · rcases h₂t with h₂t | ⟨h₂te, h₂tt⟩
        · exact Or.inl (cmpOptRat_lt_trans h₁t h₂t)
        · exact Or.inl (by rw [← cmpOptRat_eq_eq.mp h₂te]; exact h₁t)
      · rcases h₂t with h₂t | ⟨h₂te, h₂tt⟩
        · exact Or.inl (by rw [cmpOptRat_eq_eq.mp h₁te]; exact h₂t)
        · exact Or.inr ⟨by rw [cmpOptRat_eq_eq.mp h₁te]; exact h₂te,
            cmpCharList_lt_trans h₁tt h₂tt⟩

theorem cmpKey_swap {a b : ActivationItem} : cmpKey b a = (cmpKey a b).swap :=
  cmpTriple_swap

theorem rankLE_total (a b : ActivationItem) : rankLE a b ∨ rankLE b a := by
  by_cases h : cmpKey a b = Ordering.gt
  · right
    unfold rankLE
    rw [cmpKey_swap, h]
    simp [Ordering.swap]
  · exact Or.inl h

theorem rankLE_trans {a b c : ActivationItem} (h₁ : rankLE a b) (h₂ : rankLE b c) :
    rankLE a c := by
  unfold rankLE cmpKey at h₁ h₂ ⊢
  rcases ho₁ : cmpTriple (sortKey a) (sortKey b) with _ | _ | _
  · rcases ho₂ : cmpTriple (sortKey b) (sortKey c) with _ | _ | _
    · simp [cmpTriple_lt_trans ho₁ ho₂]
    · rw [cmpTriple_eq_eq.mp ho₂] at ho₁
      simp [ho₁]
    · exact absurd ho₂ h₂
  · rw [cmpTriple_eq_eq.mp ho₁]
    exact h₂
  · exact absurd ho₁ h₁

instance : IsTotal ActivationItem rankLE := ⟨rankLE_total⟩

instance : IsTrans ActivationItem rankLE := ⟨fun _ _ _ => rankLE_trans⟩

theorem rankLE_antisymm_key {a b : ActivationItem} (h₁ : rankLE a b) (h₂ : rankLE b a) :
    sortKey a = sortKey b := by
  unfold rankLE at h₁ h₂
  rcases ho : cmpKey a b with _ | _ | _
  · exfalso
    apply h₂
    rw [cmpKey_swap, ho]
    rfl
  · exact cmpTriple_eq_eq.mp ho
  · exact absurd ho h₁

/-- Sorted lists that are permutations of each other and whose elements are
determined by their sort keys are equal. -/
theorem sorted_perm_eq_of_key_inj :
    ∀ {l₁ l₂ : List ActivationItem}, l₁.Perm l₂ → l₁.Sorted rankLE → l₂.Sorted rankLE →
      (∀ a ∈ l₁, ∀ b ∈ l₁, sortKey a = sortKey b → a = b) → l₁ = l₂ := by
  intro l₁
  induction l₁ with
  | nil => intro l₂ hp _ _ _; exact hp.nil_eq
  | cons a t ih =>
    intro l₂ hp hs₁ hs₂ hinj
    cases l₂ with
    | nil => exact absurd hp.symm.nil_eq (by simp)
    | cons b t₂ =>
      have hab : a = b := by
        by_contra hne
        have ha2 : a ∈ b :: t₂ := hp.subset (List.mem_cons_self a t)
        have hb1 : b ∈ a :: t := hp.symm.subset (List.mem_cons_self b t₂)
        have ha2' : a ∈ t₂ := by
          rcases List.mem_cons.mp ha2 with h | h
          · exact absurd h hne
          · exact h
        have hb1' : b ∈ t := by
          rcases List.mem_cons.mp hb1 with h | h
          · exact absurd h.symm hne
          · exact h
        have r₁ : rankLE a b := List.rel_of_sorted_cons hs₁ b hb1'
        have r₂ : rankLE b a := List.rel_of_sorted_cons hs₂ a ha2'
        exact hne (hinj a (List.mem_cons_self a t) b (List.mem_cons_of_mem a hb1')
          (rankLE_antisymm_key r₁ r₂))
      subst hab
      have ht : t.Perm t₂ := hp.cons_inv
      have : t = t₂ := by
        refine ih ht hs₁.of_cons hs₂.of_cons ?_
        intro x hx y hy h
        exact hinj x (List.mem_cons_of_mem a hx) y (List.mem_cons_of_mem a hy) h
      rw [this]

/-! ### C6: stable_rank -/

/-- C6 (amended): stable_rank is idempotent — re-applying it to its own
output is a no-op — and whenever no two distinct items of a list share a
full sort key (score, ad_position-or-absence, gtin-or-item_group_id), the
output is fully determined by the keys alone, independent of input order:
any two permutations of such a list rank identically. (Items with equal
sort keys instead retain their input order, see the counterexample.) -/
theorem stable_rank_idempotent_and_key_determined
    (l l₁ l₂ : List ActivationItem) :
    stable_rank (stable_rank l) = stable_rank l ∧
    (l₁.Perm l₂ → (∀ a ∈ l₁, ∀ b ∈ l₁, sortKey a = sortKey b → a = b) →
      stable_rank l₁ = stable_rank l₂) := by
  constructor
  · exact (List.sorted_insertionSort rankLE l).insertionSort_eq
  · intro hp hinj
    refine sorted_perm_eq_of_key_inj ?_ (List.sorted_insertionSort rankLE l₁)
      (List.sorted_insertionSort rankLE l₂) ?_
    · exact (List.perm_insertionSort rankLE l₁).trans
        (hp.trans (List.perm_insertionSort rankLE l₂).symm)
    · intro a ha b hb h
      exact hinj a ((List.mem_insertionSort rankLE).mp ha)
        b ((List.mem_insertionSort rankLE).mp hb) h

/-- C6 witness: idempotence and permutation-independence evaluated on the
three distinct-key example items. -/
theorem stable_rank_idempotent_and_key_determined_witness :
    stable_rank (stable_rank [rankItemB, rankItemC, rankItemA])
      = stable_rank [rankItemB, rankItemC, rankItemA] ∧
    stable_rank [rankItemB, rankItemA, rankItemC]
      = stable_rank [rankItemC, rankItemA, rankItemB] :=
  ⟨(stable_rank_idempotent_and_key_determined [rankItemB, rankItemC, rankItemA] [] []).1,
   (stable_rank_idempotent_and_key_determined [] [rankItemB, rankItemA, rankItemC]
      [rankItemC, rankItemA, rankItemB]).2 (by decide) (by decide)⟩

/-- C6 counterexample: two distinct items with identical sort keys keep
their input order, so their relative order is NOT determined by the keys
alone — it depends on input order. -/
theorem stable_rank_equal_key_order_cex :
    sortKey tieItemA = sortKey tieItemB ∧ tieItemA ≠ tieItemB ∧
    stable_rank [tieItemA, tieItemB] = [tieItemA, tieItemB] ∧
    stable_rank [tieItemB, tieItemA] = [tieItemB, tieItemA] :=
  ⟨rfl, by decide, rfl, rfl⟩

/-! ### C7: apply_exclusions -/

theorem applyChecksToItem_spec (checks : List (ActivationItem → ExclusionResult))
    (item : ActivationItem) :
    ∀ (rs : List String) (b : Bool) (cs : List (String × Nat)),
      (applyChecksToItem checks item (rs, b, cs)).1 = rs ++ unionReasons checks item ∧
      (applyChecksToItem checks item (rs, b, cs)).2.1 = (b || anyExcluded checks item) := by
  induction checks with
  | nil =>
    intro rs b cs
    simp [applyChecksToItem, unionReasons, anyExcluded]
  | cons check rest ih =>
    intro rs b cs
    by_cases h : (check item).excluded
    · simp only [applyChecksToItem, h, if_true]
      refine ⟨((ih _ _ _).1).trans ?_, ((ih _ _ _).2).trans ?_⟩
      · simp [unionReasons, h, List.append_assoc]
      · simp [anyExcluded, h]
    · simp only [applyChecksToItem, h, if_false]
      refine ⟨((ih _ _ _).1).trans ?_, ((ih _ _ _).2).trans ?_⟩
      · simp [unionReasons, h]
      · simp [anyExcluded, h]

theorem applyExclusionsLoop_spec (checks : List (ActivationItem → ExclusionResult)) :
    ∀ (items e x : List ActivationItem) (cs : List (String × Nat)),
      (applyExclusionsLoop checks items (e, x, cs)).1
        = e ++ items.filter (fun i => !(anyExcluded checks i)) ∧
      (applyExclusionsLoop checks items (e, x, cs)).2.1
        = x ++ (items.filter (fun i => anyExcluded checks i)).map (markExcluded checks) := by
  intro items
  induction items with
  | nil =>
    intro e x cs
    simp [applyExclusionsLoop]
  | cons item rest ih =>
    intro e x cs
    have hstep := applyChecksToItem_spec checks item [] false cs
    have h₁ : (applyChecksToItem checks item ([], false, cs)).1
        = unionReasons checks item := by
      rw [hstep.1, List.nil_append]
    by_cases h : anyExcluded checks item
    · have h₂ : (applyChecksToItem checks item ([], false, cs)).2.1 = true := by
        rw [hstep.2, h, Bool.false_or]
      simp only [applyExclusionsLoop, h₂, if_true, h₁]
      refine ⟨?_, ?_⟩
      · rw [(ih _ _ _).1]
        simp [List.filter_cons, h]
      · rw [(ih _ _ _).2]
        simp [List.filter_cons, h, markExcluded, List.append_assoc]
    · have hb : anyExcluded checks item = false := by
        cases hb : anyExcluded checks item with
        | false => rfl
        | true => exact absurd hb h
      have h₂ : (applyChecksToItem checks item ([], false, cs)).2.1 = false := by
        rw [hstep.2, hb, Bool.false_or]
      simp only [applyExclusionsLoop, h₂, if_false, Bool.false_eq_true]
      refine ⟨?_, ?_⟩
      · rw [(ih _ _ _).1]
        simp [List.filter_cons, hb, List.append_assoc]
      · rw [(ih _ _ _).2]
        simp [List.filter_cons, hb]

theorem dictGet_dictSet (m : List (String × MetaVal)) (k : String) (v : MetaVal) :
    dictGet (dictSet m k v) k = some v := by
  induction m with
  | nil => simp [dictSet, dictGet]
  | cons p rest ih =>
    by_cases hp : p.1 = k
    · have hany : (p :: rest).any (fun q => decide (q.1 = k)) = true := by
        simp [hp]
      simp [dictSet, hany, dictGet, hp]
    · have hcons : dictSet (p :: rest) k v = p :: dictSet rest k v := by
        by_cases hr : rest.any (fun q => decide (q.1 = k)) = true
        · have h₁ : (p :: rest).any (fun q => decide (q.1 = k)) = true := by
            simp [List.any_cons, hr]
          rw [dictSet, if_pos h₁, dictSet, if_pos hr, List.map_cons, if_neg hp]
        · have hrf : rest.any (fun q => decide (q.1 = k)) = false := by
            cases hb : rest.any (fun q => decide (q.1 = k)) with
            | false => rfl
            | true => exact absurd hb hr
          have h₁ : (p :: rest).any (fun q => decide (q.1 = k)) = false := by
            simp [List.any_cons, hp, hrf]
          rw [dictSet, if_neg (by simp [h₁]), dictSet, if_neg (by simp [hrf]),
            List.cons_append]
      rw [hcons]
      simp [dictGet, hp, ih]

theorem filter_length_partition {α : Type} (p : α → Bool) (l : List α) :
    (l.filter p).length + (l.filter (fun a => !(p a))).length = l.length := by
  induction l with
  | nil => rfl
  | cons a l ih =>
    by_cases h : p a <;> simp [List.filter_cons, h, ← ih] <;> omega

/-- C7: apply_exclusions partitions its input one-to-one — eligible holds
exactly the items no predicate matched (unchanged), excluded holds exactly
the items some predicate matched, each as a fresh copy whose metadata
records under "excluded_reasons" the exact union of the reasons of every
matching predicate (all matches, not first-match); lengths add up to the
input length. Non-mutation is inherent in the functional embedding, and
every predicate is consulted for every item (the union ranges over the full
predicate list). -/
theorem apply_exclusions_partition_union_reasons
    (items : List ActivationItem) (checks : List (ActivationItem → ExclusionResult)) :
    (apply_exclusions items checks).1 = items.filter (fun i => !(anyExcluded checks i)) ∧
    (apply_exclusions items checks).2.1
      = (items.filter (fun i => anyExcluded checks i)).map (markExcluded checks) ∧
    (apply_exclusions items checks).1.length + (apply_exclusions items checks).2.1.length
      = items.length ∧
    ∀ i ∈ items, anyExcluded checks i = true →
      dictGet (markExcluded checks i).metadata "excluded_reasons"
        = some (MetaVal.strList (unionReasons checks i)) := by
  have h := applyExclusionsLoop_spec checks items [] [] []
  have h₁ : (apply_exclusions items checks).1
      = items.filter (fun i => !(anyExcluded checks i)) := by
    rw [apply_exclusions, h.1, List.nil_append]
  have h₂ : (apply_exclusions items checks).2.1
      = (items.filter (fun i => anyExcluded checks i)).map (markExcluded checks) := by
    rw [apply_exclusions, h.2, List.nil_append]
  refine ⟨h₁, h₂, ?_, ?_⟩
  · rw [h₁, h₂, List.length_map]
    have := filter_length_partition (fun i => anyExcluded checks i) items
    omega
  · intro i _ _
    exact dictGet_dictSet i.metadata "excluded_reasons" (MetaVal.strList (unionReasons checks i))

/-- C7 witness: the spec §8 example — excluding item_group_id "A" over the
two example items yields eligible [B], excluded [marked A], with reasons
["WEEKLY_AD_OVERLAP_EXCLUSION"]. -/
theorem apply_exclusions_partition_union_reasons_witness :
    (apply_exclusions [rankItemA, rankItemB] [demoCheck]).1 = [rankItemB] ∧
    (apply_exclusions [rankItemA, rankItemB] [demoCheck]).2.1
      = [markExcluded [demoCheck] rankItemA] ∧
    dictGet (markExcluded [demoCheck] rankItemA).metadata "excluded_reasons"
      = some (MetaVal.strList ["WEEKLY_AD_OVERLAP_EXCLUSION"]) := by
  have h := apply_exclusions_partition_union_reasons [rankItemA, rankItemB] [demoCheck]
  refine ⟨h.1.trans (by decide), h.2.1.trans (by decide), ?_⟩
  exact (h.2.2.2 rankItemA (by decide) (by decide)).trans (by decide)

/-! ### C8: build_policy_outcome confidence -/

theorem compute_match_rate_zero_of_all_zero {items : List ActivationItem}
    (h : ∀ i ∈ items, i.score = 0) : compute_match_rate items = 0 := by
  unfold compute_match_rate
  split_ifs with he
  · rfl
  · have hc : items.countP (fun i => decide (0 < i.score)) = 0 := by
      rw [List.countP_eq_zero]
      intro i hi
      simp [h i hi]
    rw [hc]
    simp

/-- C8 (amended): for every positive configured high-confidence threshold,
build_policy_outcome derives confidence by: empty selection ⇒ LOW;
match_rate ≥ threshold ⇒ HIGH; 0 < match_rate < threshold ⇒ MEDIUM;
match_rate = 0 ⇒ LOW, in particular for a non-empty selection whose scores
are all zero (whose computed match rate is 0). For a non-positive threshold
the HIGH branch wins instead (see the counterexample), so the
match_rate = 0 ⇒ LOW clause holds only for positive thresholds. -/
theorem build_policy_outcome_confidence_rules
    (selected excluded : List ActivationItem) (cc : Nat) (mr : Rat)
    (drv : List String) (cfg : PolicyConfig)
    (hthr : 0 < cfg.min_match_rate_for_high_confidence) :
    (selected = [] →
      (build_policy_outcome selected excluded cc mr drv cfg).computed_confidence = "LOW") ∧
    (selected ≠ [] → cfg.min_match_rate_for_high_confidence ≤ mr →
      (build_policy_outcome selected excluded cc mr drv cfg).computed_confidence = "HIGH") ∧
    (selected ≠ [] → 0 < mr → mr < cfg.min_match_rate_for_high_confidence →
      (build_policy_outcome selected excluded cc mr drv cfg).computed_confidence = "MEDIUM") ∧
    (mr = 0 →
      (build_policy_outcome selected excluded cc mr drv cfg).computed_confidence = "LOW") ∧
    ((∀ i ∈ selected, i.score = 0) →
      (build_policy_outcome selected excluded cc (compute_match_rate selected) drv
        cfg).computed_confidence = "LOW") := by
  refine ⟨?_, ?_, ?_, ?_, ?_⟩
  · intro he
    simp [build_policy_outcome, he]
  · intro hne hge
    simp [build_policy_outcome, hne, hge]
  · intro hne hpos hlt
    simp [build_policy_outcome, hne, not_le.mpr hlt, hpos]
  · intro h0
    subst h0
    by_cases he : selected = []
    · simp [build_policy_outcome, he]
    · simp [build_policy_outcome, he, not_le.mpr hthr, lt_irrefl]
  · intro hz
    rw [compute_match_rate_zero_of_all_zero hz]
    by_cases he : selected = []
    · simp [build_policy_outcome, he]
    · simp [build_policy_outcome, he, not_le.mpr hthr, lt_irrefl]

/-- C8 witness: the rules evaluated at threshold 1 — empty ⇒ LOW, full
match ⇒ HIGH, and a non-empty all-zero-score selection ⇒ LOW. -/
theorem build_policy_outcome_confidence_rules_witness :
    (build_policy_outcome [] [] 0 0 [] oneThresholdConfig).computed_confidence = "LOW" ∧
    (build_policy_outcome [rankItemA] [] 1 1 [] oneThresholdConfig).computed_confidence
      = "HIGH" ∧
    (build_policy_outcome [zeroScoreItem] [] 1 (compute_match_rate [zeroScoreItem]) []
      oneThresholdConfig).computed_confidence = "LOW" := by
  refine ⟨?_, ?_, ?_⟩
  · exact (build_policy_outcome_confidence_rules [] [] 0 0 [] oneThresholdConfig
      (by decide)).1 rfl
  · exact (build_policy_outcome_confidence_rules [rankItemA] [] 1 1 [] oneThresholdConfig
      (by decide)).2.1 (by decide) (by decide)
  · exact (build_policy_outcome_confidence_rules [zeroScoreItem] [] 1 0 [] oneThresholdConfig
      (by decide)).2.2.2.2 (by decide)

/-- C8 counterexample: with a configured threshold of 0 and a non-empty
all-zero-score selection, match_rate = 0 yet the computed confidence is
HIGH, not LOW — the match_rate = 0 ⇒ LOW clause fails for the claim's
universally quantified threshold. -/
theorem build_policy_outcome_nonpositive_threshold_cex :
    (build_policy_outcome [zeroScoreItem] [] 1 0 [] zeroThresholdConfig).computed_confidence
      = "HIGH" ∧
    compute_match_rate [zeroScoreItem] = 0 ∧
    zeroScoreItem.score = 0 := by
  refine ⟨by decide, ?_, by decide⟩
  exact compute_match_rate_zero_of_all_zero (by decide)

/-! ### C10: apply_max_items -/

/-- C10: apply_max_items is the Python slice items[:n] — for n ≥ 0 it is
the first min(n, len) items in order; for n < 0 it removes the last |n|
elements (clamping at nothing left), not an empty list and not a first-n
prefix. -/
theorem apply_max_items_python_slice (items : List ActivationItem) (n : Int) :
    (0 ≤ n → apply_max_items items n = items.take n.toNat ∧
      (apply_max_items items n).length = min n.toNat items.length) ∧
    (n < 0 → apply_max_items items n = items.take (items.length - n.natAbs)) := by
  constructor
  · intro h
    rw [apply_max_items, if_pos h]
    exact ⟨rfl, List.length_take _ _⟩
  · intro h
    rw [apply_max_items, if_neg (not_le.mpr h)]
    have : ((items.length : Int) + n).toNat = items.length - n.natAbs := by omega
    rw [this]

/-- C10 witness: slicing three items with n = -1 drops the last element. -/
theorem apply_max_items_python_slice_witness :
    apply_max_items [rankItemA, rankItemB, rankItemC] (-1)
      = [rankItemA, rankItemB, rankItemC].take
          ([rankItemA, rankItemB, rankItemC].length - (-1 : Int).natAbs) :=
  (apply_max_items_python_slice [rankItemA, rankItemB, rankItemC] (-1)).2 (by decide)

/-! ### C2: idempotent DELETE-then-INSERT persistence -/

section TableLemmas

variable {Row Key : Type} [DecidableEq Key] (key : Row → Key)

theorem map_update_keys (t : List Row) (row : Row) :
    (t.map (fun r => if key r = key row then row else r)).map key = t.map key := by
  rw [List.map_map]
  refine List.map_congr_left ?_
  intro r _
  by_cases h : key r = key row
  · simp [h]
  · simp [h]

theorem mergeUpsert_append (batch : List Row) :
    ∀ (T S : List Row), (∀ r ∈ batch, key r ∉ T.map key) →
      mergeUpsert key (T ++ S) batch = T ++ mergeUpsert key S batch := by
  induction batch with
  | nil => intro T S _; rfl
  | cons row rest ih =>
    intro T S h
    have hT : T.any (fun r => decide (key r = key row)) = false := by
      cases hb : T.any (fun r => decide (key r = key row)) with
      | false => rfl
      | true =>
        exfalso
        rcases List.any_eq_true.mp hb with ⟨r, hr, hkey⟩
        refine h row (List.mem_cons_self row rest) ?_
        rw [← of_decide_eq_true hkey]
        exact List.mem_map_of_mem key hr
    have hTmap : T.map (fun r => if key r = key row then row else r) = T := by
      refine (List.map_congr_left ?_).trans (List.map_id T)
      intro r hr
      have hne : key r ≠ key row := by
        intro hk
        exact h row (List.mem_cons_self row rest) (hk ▸ List.mem_map_of_mem key hr)
      simp [hne]
    by_cases hS : S.any (fun r => decide (key r = key row)) = true
    · have hc : (T ++ S).any (fun r => decide (key r = key row)) = true := by
        rw [List.any_append, hT, hS]
        rfl
      rw [mergeUpsert, if_pos hc, mergeUpsert, if_pos hS, List.map_append, hTmap]
      exact ih T _ (fun r hr => h r (List.mem_cons_of_mem row hr))
    · have hSf : S.any (fun r => decide (key r = key row)) = false := by
        cases hb : S.any (fun r => decide (key r = key row)) with
        | false => rfl
        | true => exact absurd hb hS
      have hc : (T ++ S).any (fun r => decide (key r = key row)) = false := by
        rw [List.any_append, hT, hSf]
        rfl
      rw [mergeUpsert, if_neg (by simp [hc]), mergeUpsert, if_neg (by simp [hSf]),
        List.append_assoc]
      exact ih T _ (fun r hr => h r (List.mem_cons_of_mem row hr))

theorem deleteKeys_key_not_mem (T : List Row) (ks : List Key) {k : Key} (hk : k ∈ ks) :
    k ∉ (deleteKeys key T ks).map key := by
  intro hmem
  rcases List.mem_map.mp hmem with ⟨r, hr, rfl⟩
  rcases List.mem_filter.mp hr with ⟨-, hcond⟩
  have : key r ∉ ks := by simpa using hcond
  exact this hk

theorem deleteInsert_eq (T batch : List Row) :
    deleteInsert key T batch
      = deleteKeys key T (batch.map key) ++ mergeUpsert key [] batch := by
  rw [deleteInsert]
  have h := mergeUpsert_append key batch (deleteKeys key T (batch.map key)) []
    (fun r hr => deleteKeys_key_not_mem key T _ (List.mem_map_of_mem key hr))
  rw [List.append_nil] at h
  exact h

theorem mem_key_mergeUpsert (batch : List Row) :
    ∀ (T : List Row), ∀ r ∈ mergeUpsert key T batch,
      key r ∈ T.map key ∨ key r ∈ batch.map key := by
  induction batch with
  | nil =>
    intro T r hr
    exact Or.inl (List.mem_map_of_mem key hr)
  | cons row rest ih =>
    intro T r hr
    rw [mergeUpsert] at hr
    by_cases hc : T.any (fun q => decide (key q = key row)) = true
    · rw [if_pos hc] at hr
      rcases ih _ r hr with h | h
      · rw [map_update_keys] at h
        exact Or.inl h
      · exact Or.inr (List.mem_cons_of_mem _ h)
    · rw [if_neg hc] at hr
      rcases ih _ r hr with h | h
      · rw [List.map_append] at h
        rcases List.mem_append.mp h with h | h
        · exact Or.inl h
        · right
          rw [List.mem_singleton.mp h]
          exact List.mem_cons_self _ _
      · exact Or.inr (List.mem_cons_of_mem _ h)

theorem nodup_keys_mergeUpsert (batch : List Row) :
    ∀ (T : List Row), (T.map key).Nodup → ((mergeUpsert key T batch).map key).Nodup := by
  induction batch with
  | nil => exact fun T h => h
  | cons row rest ih =>
    intro T h
    rw [mergeUpsert]
    by_cases hc : T.any (fun q => decide (key q = key row)) = true
    · rw [if_pos hc]
      refine ih _ ?_
      rw [map_update_keys]
      exact h
    · rw [if_neg hc]
      refine ih _ ?_
      rw [List.map_append]
      refine List.Nodup.append h (List.nodup_singleton _) ?_
      intro k hk hk'
      rw [List.mem_singleton.mp hk'] at hk
      rcases List.mem_map.mp hk with ⟨r, hr, hkeq⟩
      exact hc (List.any_eq_true.mpr ⟨r, hr, by simp [hkeq]⟩)

theorem mem_key_residualRows :
    ∀ (bs : List (List Row)), ∀ r ∈ residualRows key bs,
      key r ∈ (bs.flatten).map key := by
  intro bs
  induction bs with
  | nil =>
    intro r hr
    simp [residualRows] at hr
  | cons b rest ih =>
    intro r hr
    rw [residualRows] at hr
    rcases List.mem_append.mp hr with h | h
    · have hm : r ∈ mergeUpsert key [] b := List.mem_of_mem_filter h
      rcases mem_key_mergeUpsert key b [] r hm with hk | hk
      · simp at hk
      · rw [List.flatten_cons, List.map_append]
        exact List.mem_append.mpr (Or.inl hk)
    · rw [List.flatten_cons, List.map_append]
      exact List.mem_append.mpr (Or.inr (ih r h))

theorem writeBatches_eq (bs : List (List Row)) :
    ∀ (T : List Row),
      writeBatches key T bs
        = T.filter (fun r => !(decide (key r ∈ (bs.flatten).map key)))
            ++ residualRows key bs := by
  induction bs with
  | nil =>
    intro T
    rw [writeBatches, residualRows, List.append_nil]
    have h : ∀ r ∈ T,
        (!(decide (key r ∈ (List.flatten ([] : List (List Row))).map key))) = true := by
      intro r _
      simp
    rw [List.filter_eq_self.mpr h]
  | cons b rest ih =>
    intro T
    rw [writeBatches, ih, deleteInsert_eq, List.filter_append, residualRows]
    rw [← List.append_assoc]
    congr 2
    rw [deleteKeys, List.filter_filter]
    refine List.filter_congr ?_
    intro r _
    rw [List.flatten_cons, List.map_append]
    simp [List.mem_append, Bool.not_or, Bool.and_comm]

theorem residualRows_filter_nil (bs : List (List Row)) :
    (residualRows key bs).filter
      (fun r => !(decide (key r ∈ (bs.flatten).map key))) = [] := by
  rw [List.filter_eq_nil_iff]
  intro r hr
  have h := mem_key_residualRows key bs r hr
  rw [decide_eq_true h]
  simp

theorem writeBatches_idempotent (bs : List (List Row)) (T : List Row) :
    writeBatches key (writeBatches key T bs) bs = writeBatches key T bs := by
  rw [writeBatches_eq, writeBatches_eq, List.filter_append, residualRows_filter_nil,
    List.append_nil, List.filter_filter]
  congr 1
  refine List.filter_congr ?_
  intro r _
  rw [Bool.and_self]

theorem nodup_keys_residualRows :
    ∀ (bs : List (List Row)), ((residualRows key bs).map key).Nodup := by
  intro bs
  induction bs with
  | nil => simp [residualRows]
  | cons b rest ih =>
    rw [residualRows, List.map_append]
    refine List.Nodup.append ?_ ih ?_
    · have hsub : List.Sublist
          (((mergeUpsert key [] b).filter
            (fun r => !(decide (key r ∈ (rest.flatten).map key)))).map key)
          ((mergeUpsert key [] b).map key) :=
        List.Sublist.map key (List.filter_sublist _)
      exact (nodup_keys_mergeUpsert key b [] (by simp)).sublist hsub
    · intro k hk hk'
      rcases List.mem_map.mp hk with ⟨r, hr, rfl⟩
      rcases List.mem_filter.mp hr with ⟨-, hcond⟩
      rcases List.mem_map.mp hk' with ⟨r', hr', hkeq⟩
      have hmem : key r' ∈ (rest.flatten).map key := mem_key_residualRows key rest r' hr'
      rw [hkeq] at hmem
      rw [decide_eq_true hmem] at hcond
      exact absurd hcond (by decide)

theorem nodup_keys_writeBatches (bs : List (List Row)) (T : List Row)
    (h : (T.map key).Nodup) : ((writeBatches key T bs).map key).Nodup := by
  rw [writeBatches_eq, List.map_append]
  refine List.Nodup.append ?_ (nodup_keys_residualRows key bs) ?_
  · exact h.sublist (List.Sublist.map key (List.filter_sublist T))
  · intro k hk hk'
    rcases List.mem_map.mp hk with ⟨r, hr, rfl⟩
    rcases List.mem_filter.mp hr with ⟨-, hcond⟩
    rcases List.mem_map.mp hk' with ⟨r', hr', hkeq⟩
    have hmem : key r' ∈ (bs.flatten).map key := mem_key_residualRows key bs r' hr'
    rw [hkeq] at hmem
    rw [decide_eq_true hmem] at hcond
    exact absurd hcond (by decide)

end TableLemmas

/-- C2: the DELETE-then-INSERT write path is idempotent at the level of the
persisted non-time columns — re-running the same write over the resulting
table reproduces it exactly, for decisions and for evidence — and it never
introduces duplicate rows for a natural key (a table with at most one row
per key stays that way), because the DELETE scope is exactly the batch's
own natural keys and the insert half is the MERGE upsert. Rows are a
deterministic function of (RunContext, decisions, inputs), so identical
runs write byte-identical non-time fields. -/
theorem delete_insert_write_idempotent
    (ctx : RunContext) (decisions : List DecisionResult) (inputs : List CommonInput)
    (evidence_sets : List EvidenceSet) (dt : List DecisionRow) (et : List EvidenceRow)
    (hd : (dt.map DecisionRow.key).Nodup) (he : (et.map EvidenceRow.key).Nodup) :
    write_decisions_delete_insert ctx decisions inputs
        (write_decisions_delete_insert ctx decisions inputs dt)
      = write_decisions_delete_insert ctx decisions inputs dt ∧
    ((write_decisions_delete_insert ctx decisions inputs dt).map DecisionRow.key).Nodup ∧
    write_evidence_delete_insert ctx evidence_sets inputs decisions
        (write_evidence_delete_insert ctx evidence_sets inputs decisions et)
      = write_evidence_delete_insert ctx evidence_sets inputs decisions et ∧
    ((write_evidence_delete_insert ctx evidence_sets inputs decisions et).map
        EvidenceRow.key).Nodup := by
  refine ⟨?_, ?_, ?_, ?_⟩
  · exact writeBatches_idempotent DecisionRow.key _ dt
  · exact nodup_keys_writeBatches DecisionRow.key _ dt hd
  · exact writeBatches_idempotent EvidenceRow.key _ et
  · exact nodup_keys_writeBatches EvidenceRow.key _ et he

/-- C2 witness: one decision and one evidence set written twice over empty
tables. -/
theorem delete_insert_write_idempotent_witness :
    write_decisions_delete_insert demoCtx [demoDecision] [demoInput 0]
        (write_decisions_delete_insert demoCtx [demoDecision] [demoInput 0] [])
      = write_decisions_delete_insert demoCtx [demoDecision] [demoInput 0] [] ∧
    ((write_decisions_delete_insert demoCtx [demoDecision] [demoInput 0] []).map
        DecisionRow.key).Nodup ∧
    write_evidence_delete_insert demoCtx [demoEvidenceSet] [demoInput 0] [demoDecision]
        (write_evidence_delete_insert demoCtx [demoEvidenceSet] [demoInput 0]
          [demoDecision] [])
      = write_evidence_delete_insert demoCtx [demoEvidenceSet] [demoInput 0]
          [demoDecision] [] ∧
    ((write_evidence_delete_insert demoCtx [demoEvidenceSet] [demoInput 0] [demoDecision]
        []).map EvidenceRow.key).Nodup :=
  delete_insert_write_idempotent demoCtx [demoDecision] [demoInput 0] [demoEvidenceSet]
    [] [] (by decide) (by decide)


/-! ### Runner lemmas -/

theorem runRunner_eq_tryBlock (env : RunnerEnv) (ctx : RunContext) (c : Config)
    (h₁ : (if env.readinessEnabled then env.readinessOutcome else Except.ok ())
      = Except.ok ())
    (h₂ : env.configOutcome = Except.ok c)
    (h₃ : (if env.supportsRunStarted then env.registerStartedOutcome else Except.ok ())
      = Except.ok ()) :
    runRunner env ctx = runTryBlock env ctx c
      { lockAcquired := 1
        readinessChecked := env.readinessEnabled
        configConsulted := true
        registerStartedCalled := env.supportsRunStarted
        audit := if env.supportsRunStarted then some AuditStatus.started else none } := by
  simp only [runRunner, h₁, h₂, h₃]

theorem runTryBlock_lock (env : RunnerEnv) (ctx : RunContext) (c : Config) (s : RunState) :
    (runTryBlock env ctx c s).1.lockReleased = s.lockReleased + 1 ∧
    (runTryBlock env ctx c s).1.lockAcquired = s.lockAcquired := by
  simp only [runTryBlock]
  repeat' split
  all_goals exact ⟨rfl, rfl⟩

theorem evalLoop_cancel (ev : CommonInput → Config → Except RunError (Option EvalResult))
    (cfg : Config) (cancel : Nat → Bool) :
    ∀ (inputs : List CommonInput) (s k : Nat), k < inputs.length →
      cancel (s + k) = true → (∀ j, j < k → cancel (s + j) = false) →
      (∀ j (hj : j < inputs.length), j < k →
        ∃ r, ev (inputs.get ⟨j, hj⟩) cfg = Except.ok r) →
      (evalLoop ev cfg cancel inputs s).1 = Except.error RunError.cancelled := by
  intro inputs
  induction inputs with
  | nil =>
    intro s k hk
    exact absurd hk (by simp)
  | cons i rest ih =>
    intro s k hk hc hbefore heval
    rcases Nat.eq_zero_or_pos k with rfl | hkpos
    · have hc0 : cancel s = true := by simpa using hc
      rw [evalLoop, if_pos hc0]
    · have hc0 : cancel s = false := by
        have := hbefore 0 hkpos
        simpa using this
      have he0 : ∃ r, ev i cfg = Except.ok r := by
        have := heval 0 (by simp) hkpos
        simpa using this
      rcases he0 with ⟨r, hr⟩
      rw [evalLoop, if_neg (by simp [hc0]), hr]
      have hrec := ih (s + 1) (k - 1)
        (by simp at hk; omega)
        (by rw [show s + 1 + (k - 1) = s + k by omega]; exact hc)
        (by
          intro j hj
          have := hbefore (j + 1) (by omega)
          rw [show s + (j + 1) = s + 1 + j by omega] at this
          exact this)
        (by
          intro j hj hjk
          have := heval (j + 1) (by simp; omega) (by omega)
          exact this)
      simp [hrec, Except.map]

theorem evalLoop_error_exists
    (ev : CommonInput → Config → Except RunError (Option EvalResult))
    (cfg : Config) (cancel : Nat → Bool) :
    ∀ (inputs : List CommonInput) (s : Nat),
      (∃ j, ∃ (hj : j < inputs.length), ∃ e,
        ev (inputs.get ⟨j, hj⟩) cfg = Except.error e) →
      ∃ e, (evalLoop ev cfg cancel inputs s).1 = Except.error e := by
  intro inputs
  induction inputs with
  | nil =>
    rintro s ⟨j, hj, -⟩
    exact absurd hj (by simp)
  | cons i rest ih =>
    rintro s ⟨j, hj, e, hje⟩
    by_cases hc : cancel s = true
    · exact ⟨RunError.cancelled, by rw [evalLoop, if_pos hc]⟩
    · have hcf : cancel s = false := by
        cases hb : cancel s with
        | false => rfl
        | true => exact absurd hb hc
      cases j with
      | zero =>
        refine ⟨e, ?_⟩
        rw [evalLoop, if_neg (by simp [hcf])]
        rw [show ev i cfg = Except.error e from hje]
      | succ jj =>
        rcases hev : ev i cfg with e' | r
        · exact ⟨e', by rw [evalLoop, if_neg (by simp [hcf]), hev]⟩
        · have hjj : jj < rest.length := by simp at hj; omega
          rcases ih (s + 1) ⟨jj, hjj, e, hje⟩ with ⟨e'', he''⟩
          refine ⟨e'', ?_⟩
          rw [evalLoop, if_neg (by simp [hcf]), hev]
          simp [he'', Except.map]

theorem evalLoop_all_ok (ev : CommonInput → Config → Except RunError (Option EvalResult))
    (cfg : Config) (cancel : Nat → Bool) (f : CommonInput → Option EvalResult) :
    ∀ (inputs : List CommonInput) (s : Nat),
      (∀ k, cancel k = false) → (∀ i ∈ inputs, ev i cfg = Except.ok (f i)) →
      evalLoop ev cfg cancel inputs s
        = (Except.ok (inputs.map (fun i => (i, f i))), inputs.length) := by
  intro inputs
  induction inputs with
  | nil =>
    intro s _ _
    rfl
  | cons i rest ih =>
    intro s hnc hok
    rw [evalLoop, if_neg (by simp [hnc s]), hok i (List.mem_cons_self i rest)]
    rw [ih (s + 1) hnc (fun x hx => hok x (List.mem_cons_of_mem i hx))]
    simp [Except.map]

theorem filterMap_none_pairs (inputs : List CommonInput) :
    (inputs.map (fun i => (i, (none : Option EvalResult)))).filterMap
        (fun p => p.2.map (fun r => (p.1, r))) = [] := by
  induction inputs with
  | nil => rfl
  | cons i rest ih => simp [ih]

theorem runTryBlock_loop_error (env : RunnerEnv) (ctx : RunContext) (c : Config)
    (s : RunState) (e : RunError) (m : String)
    (hreg : (ctx.primitive_name, ctx.primitive_version) ∈ env.registry.evaluatorKeys)
    (hfetch : dictGet env.registry.inputFetchers ctx.primitive_name = some m)
    (hloop : (evalLoop env.evaluator c env.cancel env.inputs 0).1 = Except.error e) :
    runTryBlock env ctx c s
      = finishFailure env
          { s with inputsFetched := (evalLoop env.evaluator c env.cancel env.inputs 0).2 }
          e := by
  simp only [runTryBlock, Registry.ensure_version, Registry.get,
    Registry.get_input_fetch_method, if_pos hreg, hfetch, hloop]

/-! ### C1: lock release scope -/

/-- C1 (amended): once Runner.run enters its try block — i.e. when the
readiness gate, config resolution and run-started registration all return —
the lock acquired at run start is released exactly once on every exit path:
normal completion, cancellation, and any exception during the version
check, evaluator resolution, fetch/evaluation, persistence, audit
registration or publication. An exception raised after acquisition but
before the try block (readiness check, config resolution, run-started
registration) propagates without releasing the lock (see the
counterexample). -/
theorem runner_lock_release_scope (env : RunnerEnv) (ctx : RunContext) (c : Config)
    (h₁ : (if env.readinessEnabled then env.readinessOutcome else Except.ok ())
      = Except.ok ())
    (h₂ : env.configOutcome = Except.ok c)
    (h₃ : (if env.supportsRunStarted then env.registerStartedOutcome else Except.ok ())
      = Except.ok ()) :
    (runRunner env ctx).1.lockAcquired = 1 ∧ (runRunner env ctx).1.lockReleased = 1 := by
  rw [runRunner_eq_tryBlock env ctx c h₁ h₂ h₃]
  exact ⟨(runTryBlock_lock env ctx c _).2, (runTryBlock_lock env ctx c _).1⟩

/-- C1 witness: a fully healthy run acquires and releases the lock once. -/
theorem runner_lock_release_scope_witness :
    (runRunner demoEnv demoCtx).1.lockAcquired = 1 ∧
    (runRunner demoEnv demoCtx).1.lockReleased = 1 :=
  runner_lock_release_scope demoEnv demoCtx { canonical_version := "v1" } rfl rfl rfl

/-- C1 counterexample: when the config provider raises, the lock has been
acquired, the exception propagates to the caller, and the lock is never
released — config resolution sits between the acquire and the try/finally,
so it is an exit path without release. -/
theorem runner_lock_leak_before_try_cex :
    (runRunner configFailEnv demoCtx).1.lockAcquired = 1 ∧
    (runRunner configFailEnv demoCtx).1.lockReleased = 0 ∧
    (runRunner configFailEnv demoCtx).2 = Except.error RunError.other :=
  ⟨rfl, rfl, rfl⟩

/-! ### C3: cooperative cancellation -/

/-- C3: if the cancellation flag first reads true at poll k (inputs before
k evaluated normally, k within the stream), Runner.run raises the distinct
RunCancelledError outcome, never calls write_decisions or write_evidence
(inputs 1..k-1 are not persisted — nothing is written at all), and the
audit record is left in a non-SUCCESS state: FAILED when the repository
supports register_run_failed, otherwise its pre-terminal state. -/
theorem runner_cancellation_semantics (env : RunnerEnv) (ctx : RunContext) (c : Config)
    (m : String) (k : Nat)
    (h₁ : (if env.readinessEnabled then env.readinessOutcome else Except.ok ())
      = Except.ok ())
    (h₂ : env.configOutcome = Except.ok c)
    (h₃ : (if env.supportsRunStarted then env.registerStartedOutcome else Except.ok ())
      = Except.ok ())
    (hreg : (ctx.primitive_name, ctx.primitive_version) ∈ env.registry.evaluatorKeys)
    (hfetch : dictGet env.registry.inputFetchers ctx.primitive_name = some m)
    (hk : k < env.inputs.length)
    (hcancel : env.cancel k = true)
    (hbefore : ∀ j, j < k → env.cancel j = false)
    (heval : ∀ j (hj : j < env.inputs.length), j < k →
      ∃ r, env.evaluator (env.inputs.get ⟨j, hj⟩) c = Except.ok r) :
    (runRunner env ctx).2 = Except.error RunError.cancelled ∧
    (runRunner env ctx).1.decisionsWrite = none ∧
    (runRunner env ctx).1.evidenceWrite = none ∧
    (runRunner env ctx).1.audit ≠ some AuditStatus.success ∧
    (env.supportsRunFailed = true →
      (runRunner env ctx).1.audit = some AuditStatus.failed) := by
  have hloop : (evalLoop env.evaluator c env.cancel env.inputs 0).1
      = Except.error RunError.cancelled := by
    refine evalLoop_cancel env.evaluator c env.cancel env.inputs 0 k hk ?_ ?_ heval
    · simpa using hcancel
    · intro j hj
      simpa using hbefore j hj
  rw [runRunner_eq_tryBlock env ctx c h₁ h₂ h₃,
    runTryBlock_loop_error env ctx c _ RunError.cancelled m hreg hfetch hloop]
  refine ⟨rfl, rfl, rfl, ?_, ?_⟩
  · simp only [finishFailure]
    by_cases hf : env.supportsRunFailed <;> by_cases hs : env.supportsRunStarted <;>
      simp [hf, hs]
  · intro hf
    simp [finishFailure, hf]

/-- C3 witness: cancelling from the second poll on, with a non-nil
evaluator, yields the cancellation outcome, no writes, and a FAILED audit
record. -/
theorem runner_cancellation_semantics_witness :
    (runRunner cancelEnv demoCtx).2 = Except.error RunError.cancelled ∧
    (runRunner cancelEnv demoCtx).1.decisionsWrite = none ∧
    (runRunner cancelEnv demoCtx).1.audit = some AuditStatus.failed :=
  have h := runner_cancellation_semantics cancelEnv demoCtx { canonical_version := "v1" }
    "fetch_operational_risk_inputs" 1 rfl rfl rfl (by decide) rfl (by decide) (by decide)
    (by decide)
    (fun j hj _ =>
      ⟨some (demoEmit (cancelEnv.inputs.get ⟨j, hj⟩) { canonical_version := "v1" }), rfl⟩)
  ⟨h.1, h.2.1, h.2.2.2.2 rfl⟩

/-! ### C9: evaluation-phase atomicity -/

/-- C9: if the evaluator raises on any input of the stream (not only the
first), Runner.run never calls write_decisions or write_evidence — nothing
is persisted — and the run surfaces as an error; the writes are only
reachable after the entire stream has been evaluated. -/
theorem runner_evaluation_atomicity (env : RunnerEnv) (ctx : RunContext) (c : Config)
    (m : String)
    (h₁ : (if env.readinessEnabled then env.readinessOutcome else Except.ok ())
      = Except.ok ())
    (h₂ : env.configOutcome = Except.ok c)
    (h₃ : (if env.supportsRunStarted then env.registerStartedOutcome else Except.ok ())
      = Except.ok ())
    (hreg : (ctx.primitive_name, ctx.primitive_version) ∈ env.registry.evaluatorKeys)
    (hfetch : dictGet env.registry.inputFetchers ctx.primitive_name = some m)
    (hex : ∃ j, ∃ (hj : j < env.inputs.length), ∃ e,
      env.evaluator (env.inputs.get ⟨j, hj⟩) c = Except.error e) :
    (runRunner env ctx).1.decisionsWrite = none ∧
    (runRunner env ctx).1.evidenceWrite = none ∧
    ∃ e, (runRunner env ctx).2 = Except.error e := by
  rcases evalLoop_error_exists env.evaluator c env.cancel env.inputs 0 hex with ⟨e, hloop⟩
  rw [runRunner_eq_tryBlock env ctx c h₁ h₂ h₃,
    runTryBlock_loop_error env ctx c _ e m hreg hfetch hloop]
  exact ⟨rfl, rfl, e, rfl⟩

/-- C9 witness: an evaluator that raises on the second input (after
emitting normally on the first) persists nothing and fails the run. -/
theorem runner_evaluation_atomicity_witness :
    (runRunner evalErrEnv demoCtx).1.decisionsWrite = none ∧
    (runRunner evalErrEnv demoCtx).1.evidenceWrite = none ∧
    ∃ e, (runRunner evalErrEnv demoCtx).2 = Except.error e :=
  runner_evaluation_atomicity evalErrEnv demoCtx { canonical_version := "v1" }
    "fetch_operational_risk_inputs" rfl rfl rfl (by decide) rfl
    ⟨1, by decide, RunError.other, rfl⟩

/-! ### C4: sparse emission and the returned summary -/

/-- C4 (amended): when the evaluator returns nil for every fetched input
(and no cancellation or port failure intervenes), Runner.run calls
write_decisions and write_evidence with empty payloads — zero decisions and
zero evidence sets persisted — and returns the summary dict whose key
"count" (the emitted count; there is no "emitted_count" key) is 0 while
"evaluated_count" equals the number of fetched inputs, alongside
tenant_id, primitive_name, primitive_version, config_version, state_counts
and duration_ms. -/
theorem runner_sparse_emission_summary (env : RunnerEnv) (ctx : RunContext) (c : Config)
    (m : String)
    (h₁ : (if env.readinessEnabled then env.readinessOutcome else Except.ok ())
      = Except.ok ())
    (h₂ : env.configOutcome = Except.ok c)
    (h₃ : (if env.supportsRunStarted then env.registerStartedOutcome else Except.ok ())
      = Except.ok ())
    (hreg : (ctx.primitive_name, ctx.primitive_version) ∈ env.registry.evaluatorKeys)
    (hfetch : dictGet env.registry.inputFetchers ctx.primitive_name = some m)
    (hnc : ∀ k, env.cancel k = false)
    (hnil : ∀ i ∈ env.inputs, env.evaluator i c = Except.ok none)
    (hwd : env.writeDecisionsOutcome = Except.ok ())
    (hwe : env.writeEvidenceOutcome = Except.ok ())
    (hpub : env.publishOutcome = Except.ok ()) :
    (runRunner env ctx).1.decisionsWrite = some ([], []) ∧
    (runRunner env ctx).1.evidenceWrite = some ([], [], []) ∧
    (runRunner env ctx).2
      = Except.ok (buildSummary ctx 0 env.inputs.length [] env.durationMs) ∧
    dictGet (buildSummary ctx 0 env.inputs.length [] env.durationMs) "count"
      = some (SummaryVal.n 0) ∧
    dictGet (buildSummary ctx 0 env.inputs.length [] env.durationMs) "evaluated_count"
      = some (SummaryVal.n env.inputs.length) ∧
    dictGet (buildSummary ctx 0 env.inputs.length [] env.durationMs) "emitted_count"
      = none := by
  have hloop := evalLoop_all_ok env.evaluator c env.cancel (fun _ => none) env.inputs 0
    hnc hnil
  rw [runRunner_eq_tryBlock env ctx c h₁ h₂ h₃]
  simp only [runTryBlock, Registry.ensure_version, Registry.get,
    Registry.get_input_fetch_method, if_pos hreg, hfetch, hloop, hwd, hwe, hpub,
    filterMap_none_pairs, List.map_nil, List.length_nil, List.length_map, countStates,
    List.foldl_nil]
  refine ⟨by trivial, by trivial, by trivial, ?_, ?_, ?_⟩
  · simp [buildSummary, dictGet]
  · simp [buildSummary, dictGet]
  · by_cases hop : ctx.primitive_name = "operational_risk" <;>
      simp [buildSummary, dictGet, hop]

/-- C4 witness: three inputs, all evaluating to nil — empty writes and the
summary with count 0, evaluated_count 3. -/
theorem runner_sparse_emission_summary_witness :
    (runRunner demoEnv demoCtx).1.decisionsWrite = some ([], []) ∧
    (runRunner demoEnv demoCtx).1.evidenceWrite = some ([], [], []) ∧
    (runRunner demoEnv demoCtx).2
      = Except.ok (buildSummary demoCtx 0 demoEnv.inputs.length [] demoEnv.durationMs) :=
  have h := runner_sparse_emission_summary demoEnv demoCtx { canonical_version := "v1" }
    "fetch_operational_risk_inputs" rfl rfl rfl (by decide) rfl (fun _ => rfl)
    (fun _ _ => rfl) rfl rfl rfl
  ⟨h.1, h.2.1, h.2.2.1⟩

/-- C4 counterexample: the summary of an all-nil run carries its emitted
count under the key "count" — the key "emitted_count" claimed by the spec
does not exist in the returned dict. -/
theorem runner_summary_key_is_count_cex :
    (runRunner demoEnv demoCtx).2 = Except.ok (buildSummary demoCtx 0 3 [] 7) ∧
    dictGet (buildSummary demoCtx 0 3 [] 7) "emitted_count" = none ∧
    dictGet (buildSummary demoCtx 0 3 [] 7) "count" = some (SummaryVal.n 0) ∧
    dictGet (buildSummary demoCtx 0 3 [] 7) "evaluated_count" = some (SummaryVal.n 3) :=
  ⟨rfl, rfl, rfl, rfl⟩

/-! ### C5: registry error taxonomy and fail-fast ordering -/

/-- C5 (amended): a version-mismatch (ensure_version) aborts Runner.run
before any input is fetched and before any decision/evidence write;
Registry.get fails with the distinct unknown-primitive error for
unregistered pairs, and the two error classes are distinguishable. The
errors are NOT raised before all I/O: config resolution and the run-started
registry write precede the registry check (see the counterexample). -/
theorem registry_error_fail_fast_before_fetch (env : RunnerEnv) (ctx : RunContext)
    (c : Config) (cv n v : String)
    (h₁ : (if env.readinessEnabled then env.readinessOutcome else Except.ok ())
      = Except.ok ())
    (h₂ : env.configOutcome = Except.ok c)
    (h₃ : (if env.supportsRunStarted then env.registerStartedOutcome else Except.ok ())
      = Except.ok ())
    (hmiss : (ctx.primitive_name, ctx.primitive_version) ∉ env.registry.evaluatorKeys) :
    (runRunner env ctx).2 = Except.error RunError.versionMismatch ∧
    (runRunner env ctx).1.inputsFetched = 0 ∧
    (runRunner env ctx).1.decisionsWrite = none ∧
    (runRunner env ctx).1.evidenceWrite = none ∧
    (∀ (r : Registry), (n, v) ∉ r.evaluatorKeys →
      r.get n v = Except.error RunError.unknownPrimitive ∧
      r.ensure_version n v cv = Except.error RunError.versionMismatch) ∧
    RunError.unknownPrimitive ≠ RunError.versionMismatch := by
  rw [runRunner_eq_tryBlock env ctx c h₁ h₂ h₃]
  have hev : env.registry.ensure_version ctx.primitive_name ctx.primitive_version
      ctx.config_version = Except.error RunError.versionMismatch := by
    rw [Registry.ensure_version, if_neg hmiss]
  simp only [runTryBlock, hev]
  refine ⟨rfl, rfl, rfl, rfl, ?_, by decide⟩
  intro r hm
  exact ⟨by rw [Registry.get, if_neg hm], by rw [Registry.ensure_version, if_neg hm]⟩

/-- C5 witness: requesting operational_risk version 9.9.9 yields the
version-mismatch error with zero inputs fetched, and an unregistered name
yields the distinct unknown-primitive error from Registry.get. -/
theorem registry_error_fail_fast_before_fetch_witness :
    (runRunner demoEnv badVersionCtx).2 = Except.error RunError.versionMismatch ∧
    (runRunner demoEnv badVersionCtx).1.inputsFetched = 0 ∧
    defaultRegistry.get "nope" "1.0.0" = Except.error RunError.unknownPrimitive :=
  have h := registry_error_fail_fast_before_fetch demoEnv badVersionCtx
    { canonical_version := "v1" } "c1" "nope" "1.0.0" rfl rfl rfl (by decide)
  ⟨h.1, h.2.1, (h.2.2.2.2.1 defaultRegistry (by decide)).1⟩

/-- C5 counterexample: on the version-mismatch run, the config provider was
consulted and the run-started registry row was written (both I/O) before
the error was raised — the errors are fail-fast only relative to input
fetching, not to all I/O. -/
theorem registry_error_after_io_cex :
    (runRunner demoEnv badVersionCtx).2 = Except.error RunError.versionMismatch ∧
    (runRunner demoEnv badVersionCtx).1.configConsulted = true ∧
    (runRunner demoEnv badVersionCtx).1.registerStartedCalled = true ∧
    (runRunner demoEnv badVersionCtx).1.audit = some AuditStatus.failed ∧
    (runRunner demoEnv badVersionCtx).1.inputsFetched = 0 :=
  ⟨rfl, rfl, rfl, rfl, rfl⟩

end Opsiq
